import Mathlib

/-!
# File operation engine of `FileManagerWindow` (src/main.cpp)

A shallow embedding of the clipboard / paste / delete / rename handlers of the
Qt file manager.  The Qt primitives the handlers call (`QFile::rename`,
`QFile::copy`, `QFile::remove`, `QDir::removeRecursively`, `QFileInfo`,
`QUrl`, `QDir::separator`) are library code and are taken as a parameter
(`Platform`).  Every handler returns the sequence of filesystem calls it made
(with their results) and of message boxes it showed, together with the new
state.
-/

namespace Enapp

/-- A call of one of the Qt filesystem primitives used by the handlers. -/
inductive FsCall where
  | rename (src dst : String)
  | copy (src dst : String)
  | remove (path : String)
  | removeRecursively (path : String)
  deriving DecidableEq, Repr

/-- The message boxes shown by the handlers, one constructor per message text. -/
inductive Dialog where
  /-- Warning that a folder, named in the text, could not be deleted (line 248). -/
  | deleteFolderFailed (path : String)
  /-- Warning that a file, named in the text, could not be deleted (line 253). -/
  | deleteFileFailed (path : String)
  /-- Information box asking to select exactly one item to rename (line 265). -/
  | selectExactlyOne
  /-- Warning "Failed to rename." (line 285). -/
  | renameFailed
  /-- Warning "Failed to move folder. Cross-device moves not supported." (line 350). -/
  | moveFolderFailed
  /-- Warning "Failed to move file." (line 356). -/
  | moveFileFailed
  /-- Warning "Folder copy not implemented." (line 365). -/
  | folderCopyNotImplemented
  /-- Warning "Failed to copy file." (line 369). -/
  | copyFileFailed
  deriving DecidableEq, Repr

/-- What a handler does that is visible outside it: a filesystem call with the
boolean it returned, a warning box (`QMessageBox::warning`) or an information
box (`QMessageBox::information`). -/
inductive Event where
  | call (c : FsCall) (ok : Bool)
  | warning (d : Dialog)
  | information (d : Dialog)
  deriving DecidableEq, Repr

/-- The Qt primitives used by the handlers, over a disk state `σ` and a URL
type `υ`.  A filesystem primitive returns its boolean result and the disk it
leaves. -/
structure Platform (σ υ : Type) where
  /-- The value of QDir::separator(). -/
  separator : String
  /-- The value of QFileInfo(p).fileName(). -/
  fileName : String → String
  /-- The value of QFileInfo(p).path(). -/
  path : String → String
  /-- The value of QUrl::toLocalFile(). -/
  toLocalFile : υ → String
  /-- The value of QUrl::fromLocalFile(p). -/
  fromLocalFile : String → υ
  /-- The value of QFileInfo(p).isDir() on the given disk. -/
  isDir : σ → String → Bool
  /-- Result of QFile::rename(src, dst). -/
  rename : σ → String → String → Bool × σ
  /-- Result of QFile::copy(src, dst). -/
  copy : σ → String → String → Bool × σ
  /-- Result of QFile::remove(p). -/
  remove : σ → String → Bool × σ
  /-- Result of QDir(p).removeRecursively(). -/
  removeRecursively : σ → String → Bool × σ

/-- The state the handlers read and write: the disk, the URL list of the
system clipboard (`none` when `mimeData->hasUrls()` is false) and the member
`cutMode`. -/
structure AppState (σ υ : Type) where
  disk : σ
  clipboard : Option (List υ)
  cutMode : Bool

variable {σ υ : Type}

/-! ## deleteItems (lines 228-258) -/

/-- Body of the loop of `deleteItems` (lines 243-255). -/
def deleteEntry (q : Platform σ υ) (path : String) (disk : σ) : List Event × σ :=
  if q.isDir disk path then
    let r := q.removeRecursively disk path
    (Event.call (FsCall.removeRecursively path) r.1 ::
      (if r.1 then [] else [Event.warning (Dialog.deleteFolderFailed path)]), r.2)
  else
    let r := q.remove disk path
    (Event.call (FsCall.remove path) r.1 ::
      (if r.1 then [] else [Event.warning (Dialog.deleteFileFailed path)]), r.2)

/-- The loop `for (const QString &path : paths)` of `deleteItems`. -/
def deleteLoop (q : Platform σ υ) : List String → σ → List Event × σ
  | [], disk => ([], disk)
  | p :: ps, disk =>
    let r := deleteEntry q p disk
    let rs := deleteLoop q ps r.2
    (r.1 ++ rs.1, rs.2)

/-- Handler `deleteItems`: `selected` are the file paths of the selected
indexes, `confirmed` is whether the question box was answered Yes. -/
def deleteItems (q : Platform σ υ) (selected : List String) (confirmed : Bool)
    (s : AppState σ υ) : List Event × AppState σ υ :=
  if selected = [] then ([], s)
  else if confirmed then
    let r := deleteLoop q selected s.disk
    (r.1, { s with disk := r.2 })
  else ([], s)

/-! ## renameItem (lines 260-288) -/

/-- Handler `renameItem`: `selected` are the file paths of the selected
indexes, `newName` and `ok` are what `QInputDialog::getText` returned. -/
def renameItem (q : Platform σ υ) (selected : List String) (newName : String) (ok : Bool)
    (s : AppState σ υ) : List Event × AppState σ υ :=
  match selected with
  | [oldPath] =>
    let oldName := q.fileName oldPath
    if ok ∧ newName ≠ "" ∧ newName ≠ oldName then
      let newPath := q.path oldPath ++ q.separator ++ newName
      let r := q.rename s.disk oldPath newPath
      (Event.call (FsCall.rename oldPath newPath) r.1 ::
        (if r.1 then [] else [Event.warning Dialog.renameFailed]), { s with disk := r.2 })
    else ([], s)
  | _ => ([Event.information Dialog.selectExactlyOne], s)

/-! ## copyItems / cutItems (lines 290-324) -/

/-- Handler `copyItems`. -/
def copyItems (q : Platform σ υ) (selected : List String) (s : AppState σ υ) : AppState σ υ :=
  if selected = [] then s
  else { s with clipboard := some (selected.map q.fromLocalFile), cutMode := false }

/-- Handler `cutItems`. -/
def cutItems (q : Platform σ υ) (selected : List String) (s : AppState σ υ) : AppState σ υ :=
  if selected = [] then s
  else { s with clipboard := some (selected.map q.fromLocalFile), cutMode := true }

/-! ## pasteItems (lines 326-375) -/

/-- Destination of one pasted entry, `destFile` of line 341. -/
def destFile (q : Platform σ υ) (destPath srcPath : String) : String :=
  destPath ++ q.separator ++ q.fileName srcPath

/-- Body of the loop of `pasteItems` (lines 337-372) for one URL. -/
def pasteEntry (q : Platform σ υ) (cutMode : Bool) (destPath : String) (url : υ) (disk : σ) :
    List Event × σ :=
  let srcPath := q.toLocalFile url
  if srcPath = "" then ([], disk)
  else
    let dest := destFile q destPath srcPath
    if cutMode then
      let r := q.rename disk srcPath dest
      if r.1 then ([Event.call (FsCall.rename srcPath dest) true], r.2)
      else if q.isDir r.2 srcPath then
        ([Event.call (FsCall.rename srcPath dest) false, Event.warning Dialog.moveFolderFailed],
          r.2)
      else
        let c := q.copy r.2 srcPath dest
        if c.1 then
          let d := q.remove c.2 srcPath
          ([Event.call (FsCall.rename srcPath dest) false,
            Event.call (FsCall.copy srcPath dest) true,
            Event.call (FsCall.remove srcPath) d.1], d.2)
        else
          ([Event.call (FsCall.rename srcPath dest) false,
            Event.call (FsCall.copy srcPath dest) false,
            Event.warning Dialog.moveFileFailed], c.2)
    else
      if q.isDir disk srcPath then ([Event.warning Dialog.folderCopyNotImplemented], disk)
      else
        let c := q.copy disk srcPath dest
        (Event.call (FsCall.copy srcPath dest) c.1 ::
          (if c.1 then [] else [Event.warning Dialog.copyFileFailed]), c.2)

/-- The loop `for (const QUrl &url : urls)` of `pasteItems`; `cutMode` is not
written inside the loop. -/
def pasteLoop (q : Platform σ υ) (cutMode : Bool) (destPath : String) :
    List υ → σ → List Event × σ
  | [], disk => ([], disk)
  | u :: us, disk =>
    let r := pasteEntry q cutMode destPath u disk
    let rs := pasteLoop q cutMode destPath us r.2
    (r.1 ++ rs.1, rs.2)

/-- The events of each iteration of the loop of `pasteItems`, one list per
URL of the payload, in iteration order. -/
def pasteRuns (q : Platform σ υ) (cutMode : Bool) (destPath : String) :
    List υ → σ → List (List Event)
  | [], _ => []
  | u :: us, disk =>
    let r := pasteEntry q cutMode destPath u disk
    r.1 :: pasteRuns q cutMode destPath us r.2

/-- Handler `pasteItems`: `destPath` is `model->filePath(listView->rootIndex())`. -/
def pasteItems (q : Platform σ υ) (destPath : String) (s : AppState σ υ) :
    List Event × AppState σ υ :=
  match s.clipboard with
  | none => ([], s)
  | some urls =>
    let r := pasteLoop q s.cutMode destPath urls s.disk
    (r.1, { s with disk := r.2, cutMode := false })

/-! ## Projections of an event sequence -/

/-- Whether the event is a warning box. -/
def Event.isWarning : Event → Bool
  | Event.warning _ => true
  | _ => false

/-- Whether the event is a call of `QFile::rename`. -/
def Event.isRename : Event → Bool
  | Event.call (FsCall.rename _ _) _ => true
  | _ => false

/-- Whether the event is a call of `QFile::copy`. -/
def Event.isCopy : Event → Bool
  | Event.call (FsCall.copy _ _) _ => true
  | _ => false

/-- Whether the event is a call of `QFile::remove`. -/
def Event.isRemove : Event → Bool
  | Event.call (FsCall.remove _) _ => true
  | _ => false

/-- The path a filesystem call operates on (its source, for the binary calls). -/
def FsCall.source : FsCall → String
  | FsCall.rename src _ => src
  | FsCall.copy src _ => src
  | FsCall.remove p => p
  | FsCall.removeRecursively p => p

/-- The paths on which a removal was called, in call order. -/
def removalTargets : List Event → List String
  | [] => []
  | Event.call (FsCall.remove p) _ :: es => p :: removalTargets es
  | Event.call (FsCall.removeRecursively p) _ :: es => p :: removalTargets es
  | _ :: es => removalTargets es

/-- The failure message corresponding to each removal call that returned
false, in call order. -/
def failedRemovals : List Event → List Dialog
  | [] => []
  | Event.call (FsCall.remove p) false :: es => Dialog.deleteFileFailed p :: failedRemovals es
  | Event.call (FsCall.removeRecursively p) false :: es =>
    Dialog.deleteFolderFailed p :: failedRemovals es
  | _ :: es => failedRemovals es

/-- The warning boxes shown, in order. -/
def shownWarnings : List Event → List Dialog
  | [] => []
  | Event.warning d :: es => d :: shownWarnings es
  | _ :: es => shownWarnings es

/-- What the events of one iteration of the paste loop look like: empty exactly
when the local file of the URL is empty, calls on that local file only, at most
one call of each primitive and at most one warning. -/
def EntryShape (q : Platform σ υ) (u : υ) (run : List Event) : Prop :=
  (run = [] ↔ q.toLocalFile u = "") ∧
  (∀ c ok, Event.call c ok ∈ run → c.source = q.toLocalFile u) ∧
  run.countP Event.isRename ≤ 1 ∧ run.countP Event.isCopy ≤ 1 ∧
  run.countP Event.isRemove ≤ 1 ∧ run.countP Event.isWarning ≤ 1

/-! ## A small concrete platform

Used to evaluate the handlers on concrete inputs.  The disk is a list of file
paths and a list of directory paths; `refused` lists the calls that the
platform makes fail whatever the disk holds (a cross-device rename, an I/O
error, a permission error). -/

/-- Disk of the concrete platform. -/
structure SimDisk where
  files : List String
  dirs : List String
  refused : List FsCall
  deriving DecidableEq, Repr

/-- Whether a path names a file or a directory of the disk. -/
def SimDisk.has (d : SimDisk) (p : String) : Bool :=
  decide (p ∈ d.files) || decide (p ∈ d.dirs)

/-- Whether `p` lies strictly below directory `root`. -/
def isBelow (root p : String) : Bool :=
  (root.data ++ ['/']).isPrefixOf p.data

/-- Path `p` after its ancestor-or-self `src` was renamed to `dst`. -/
def reroot (src dst p : String) : String :=
  if p = src then dst
  else if isBelow src p then String.mk (dst.data ++ p.data.drop src.data.length)
  else p

/-- Characters after the last slash. -/
def lastSegment : List Char → List Char
  | [] => []
  | c :: cs => if '/' ∈ cs then lastSegment cs else if c = '/' then cs else c :: cs

/-- Characters before the last slash. -/
def parentChars : List Char → List Char
  | [] => []
  | c :: cs => if '/' ∈ cs then c :: parentChars cs else []

/-- The concrete platform: URLs are strings, a local file has the form
`file://` followed by its path. -/
def simPlatform : Platform SimDisk String where
  separator := "/"
  fileName := fun p => String.mk (lastSegment p.data)
  path := fun p => String.mk (parentChars p.data)
  toLocalFile := fun u =>
    if "file://".data.isPrefixOf u.data then String.mk (u.data.drop 7) else ""
  fromLocalFile := fun p => "file://" ++ p
  isDir := fun d p => decide (p ∈ d.dirs)
  rename := fun d src dst =>
    if FsCall.rename src dst ∈ d.refused ∨ d.has src = false ∨ d.has dst = true then (false, d)
    else (true, { d with files := d.files.map (reroot src dst),
                         dirs := d.dirs.map (reroot src dst) })
  copy := fun d src dst =>
    if FsCall.copy src dst ∈ d.refused ∨ src ∉ d.files ∨ d.has dst = true then (false, d)
    else (true, { d with files := d.files ++ [dst] })
  remove := fun d p =>
    if FsCall.remove p ∈ d.refused ∨ p ∉ d.files then (false, d)
    else (true, { d with files := d.files.filter (fun f => f ≠ p) })
  removeRecursively := fun d p =>
    if FsCall.removeRecursively p ∈ d.refused then (false, d)
    else (true, { d with files := d.files.filter (fun f => !isBelow p f),
                         dirs := d.dirs.filter (fun f => f ≠ p && !isBelow p f) })

/-- A payload of one local file, one URL that is not a local file, and one
more local file. -/
def mixedPayload : List String := ["file:///src/a", "http://x/y", "file:///src/c"]

/-- A payload of three local files, the second of which is not on `disk0`. -/
def missingSecond : List String := ["file:///src/a", "file:///src/b", "file:///src/c"]

/-- A variant of `disk0` on which moving or copying `/src/a` into `/dst` fails. -/
def diskRefusing : SimDisk :=
  { files := ["/src/a", "/src/c", "/src/d/f"], dirs := ["/src", "/src/d", "/dst"],
    refused := [FsCall.rename "/src/a" "/dst/a", FsCall.copy "/src/a" "/dst/a"] }

/-- A variant of `disk0` on which renaming `/src/a` into `/dst` and removing
`/src/a` fail, while copying it succeeds. -/
def diskKeepingSource : SimDisk :=
  { files := ["/src/a", "/src/c", "/src/d/f"], dirs := ["/src", "/src/d", "/dst"],
    refused := [FsCall.rename "/src/a" "/dst/a", FsCall.remove "/src/a"] }

/-- A variant of `disk0` on which removing the directory `/src/d` fails. -/
def diskLocked : SimDisk :=
  { files := ["/src/a", "/src/c", "/src/d/f"], dirs := ["/src", "/src/d", "/dst"],
    refused := [FsCall.removeRecursively "/src/d"] }

/-- A disk with two files and a directory holding one file under `/src`, and
an empty directory `/dst`. -/
def disk0 : SimDisk :=
  { files := ["/src/a", "/src/c", "/src/d/f"], dirs := ["/src", "/src/d", "/dst"], refused := [] }

/-! ## Lemmas on the loops -/

theorem pasteLoop_nil (q : Platform σ υ) (cutMode : Bool) (destPath : String) (disk : σ) :
    pasteLoop q cutMode destPath [] disk = ([], disk) := rfl

theorem pasteLoop_cons (q : Platform σ υ) (cutMode : Bool) (destPath : String) (u : υ)
    (us : List υ) (disk : σ) :
    pasteLoop q cutMode destPath (u :: us) disk =
      ((pasteEntry q cutMode destPath u disk).1 ++
          (pasteLoop q cutMode destPath us (pasteEntry q cutMode destPath u disk).2).1,
        (pasteLoop q cutMode destPath us (pasteEntry q cutMode destPath u disk).2).2) := rfl

/-- Every event of the loop of `pasteItems` is an event of the loop body run
on one URL of the payload from some disk. -/
theorem mem_pasteLoop (q : Platform σ υ) (cutMode : Bool) (destPath : String) (e : Event) :
    ∀ (urls : List υ) (disk : σ), e ∈ (pasteLoop q cutMode destPath urls disk).1 →
      ∃ u ∈ urls, ∃ d, e ∈ (pasteEntry q cutMode destPath u d).1
  | [], disk, h => by simp [pasteLoop_nil] at h
  | u :: us, disk, h => by
    rw [pasteLoop_cons] at h
    rcases List.mem_append.mp h with h1 | h2
    · exact ⟨u, List.mem_cons_self _ _, disk, h1⟩
    · obtain ⟨v, hv, d, hd⟩ := mem_pasteLoop q cutMode destPath e us _ h2
      exact ⟨v, List.mem_cons_of_mem _ hv, d, hd⟩

/-- A removal in one iteration of the paste loop happens in cut mode only, on
the source of the iteration, after its rename failed and its copy succeeded. -/
theorem pasteEntry_remove (q : Platform σ υ) (cutMode : Bool) (destPath : String) (u : υ)
    (disk : σ) (p : String) (ok : Bool)
    (h : Event.call (FsCall.remove p) ok ∈ (pasteEntry q cutMode destPath u disk).1) :
    cutMode = true ∧
      (pasteEntry q cutMode destPath u disk).1 =
        [Event.call (FsCall.rename p (destFile q destPath p)) false,
          Event.call (FsCall.copy p (destFile q destPath p)) true,
          Event.call (FsCall.remove p) ok] := by
  unfold pasteEntry at h ⊢
  simp only at h ⊢
  split_ifs at h ⊢ <;> simp_all

/-- A removal in the paste loop comes right after the failed rename and the
successful copy of the same source. -/
theorem pasteLoop_remove (q : Platform σ υ) (cutMode : Bool) (destPath : String) (p : String)
    (ok : Bool) :
    ∀ (urls : List υ) (disk : σ),
      Event.call (FsCall.remove p) ok ∈ (pasteLoop q cutMode destPath urls disk).1 →
      cutMode = true ∧ ∃ pre post, (pasteLoop q cutMode destPath urls disk).1 =
        pre ++ [Event.call (FsCall.rename p (destFile q destPath p)) false,
                Event.call (FsCall.copy p (destFile q destPath p)) true,
                Event.call (FsCall.remove p) ok] ++ post
  | [], disk, h => by simp [pasteLoop_nil] at h
  | u :: us, disk, h => by
    rw [pasteLoop_cons] at h ⊢
    rcases List.mem_append.mp h with h1 | h2
    · obtain ⟨hc, he⟩ := pasteEntry_remove q cutMode destPath u disk p ok h1
      exact ⟨hc, [], (pasteLoop q cutMode destPath us (pasteEntry q cutMode destPath u disk).2).1,
        by rw [he]; simp⟩
    · obtain ⟨hc, pre, post, he⟩ := pasteLoop_remove q cutMode destPath p ok us _ h2
      exact ⟨hc, (pasteEntry q cutMode destPath u disk).1 ++ pre, post, by
        simp only [he, List.append_assoc]⟩

/-- The trace of the paste loop is the concatenation of its iterations. -/
theorem pasteLoop_eq_join (q : Platform σ υ) (cutMode : Bool) (destPath : String) :
    ∀ (urls : List υ) (disk : σ),
      (pasteLoop q cutMode destPath urls disk).1 = (pasteRuns q cutMode destPath urls disk).flatten
  | [], _ => rfl
  | u :: us, disk => by
    rw [pasteLoop_cons]
    simp only [pasteRuns, List.flatten_cons]
    rw [pasteLoop_eq_join q cutMode destPath us]

theorem pasteEntry_shape (q : Platform σ υ) (cutMode : Bool) (destPath : String) (u : υ)
    (disk : σ) : EntryShape q u (pasteEntry q cutMode destPath u disk).1 := by
  unfold EntryShape pasteEntry
  simp only
  split_ifs <;>
    simp_all [FsCall.source, List.countP_cons, Event.isRename, Event.isCopy, Event.isRemove,
      Event.isWarning]
  aesop

theorem pasteRuns_shape (q : Platform σ υ) (cutMode : Bool) (destPath : String) :
    ∀ (urls : List υ) (disk : σ),
      List.Forall₂ (EntryShape q) urls (pasteRuns q cutMode destPath urls disk)
  | [], _ => List.Forall₂.nil
  | u :: us, disk =>
    List.Forall₂.cons (pasteEntry_shape q cutMode destPath u disk)
      (pasteRuns_shape q cutMode destPath us _)

/-- In copy mode one iteration of the paste loop calls neither rename nor remove. -/
theorem pasteEntry_copyMode (q : Platform σ υ) (destPath : String) (u : υ) (disk : σ) :
    ∀ e ∈ (pasteEntry q false destPath u disk).1, e.isRename = false ∧ e.isRemove = false := by
  unfold pasteEntry
  simp only
  split_ifs <;> simp_all [Event.isRename, Event.isRemove]

theorem deleteLoop_nil (q : Platform σ υ) (disk : σ) : deleteLoop q [] disk = ([], disk) := rfl

theorem deleteLoop_cons (q : Platform σ υ) (p : String) (ps : List String) (disk : σ) :
    deleteLoop q (p :: ps) disk =
      ((deleteEntry q p disk).1 ++ (deleteLoop q ps (deleteEntry q p disk).2).1,
        (deleteLoop q ps (deleteEntry q p disk).2).2) := rfl

theorem removalTargets_append (xs ys : List Event) :
    removalTargets (xs ++ ys) = removalTargets xs ++ removalTargets ys := by
  induction xs with
  | nil => rfl
  | cons e es ih =>
    rcases e with ⟨c, ok⟩ | d | d
    · cases c <;> simp [removalTargets, ih]
    · simp [removalTargets, ih]
    · simp [removalTargets, ih]

theorem failedRemovals_append (xs ys : List Event) :
    failedRemovals (xs ++ ys) = failedRemovals xs ++ failedRemovals ys := by
  induction xs with
  | nil => rfl
  | cons e es ih =>
    rcases e with ⟨c, ok⟩ | d | d
    · cases c <;> cases ok <;> simp [failedRemovals, ih]
    · simp [failedRemovals, ih]
    · simp [failedRemovals, ih]

theorem shownWarnings_append (xs ys : List Event) :
    shownWarnings (xs ++ ys) = shownWarnings xs ++ shownWarnings ys := by
  induction xs with
  | nil => rfl
  | cons e es ih =>
    rcases e with ⟨c, ok⟩ | d | d <;> simp [shownWarnings, ih]

/-- One iteration of the delete loop: one removal call on the path, by
`removeRecursively` for a directory and by `remove` otherwise, and the
matching warning exactly when the call returned false. -/
theorem deleteEntry_events (q : Platform σ υ) (path : String) (disk : σ) :
    (deleteEntry q path disk).1 =
      if q.isDir disk path = true then
        Event.call (FsCall.removeRecursively path) (q.removeRecursively disk path).1 ::
          (if (q.removeRecursively disk path).1 = true then []
            else [Event.warning (Dialog.deleteFolderFailed path)])
      else
        Event.call (FsCall.remove path) (q.remove disk path).1 ::
          (if (q.remove disk path).1 = true then []
            else [Event.warning (Dialog.deleteFileFailed path)]) := by
  unfold deleteEntry
  by_cases h : q.isDir disk path = true <;> simp [h]

theorem deleteEntry_targets (q : Platform σ υ) (path : String) (disk : σ) :
    removalTargets (deleteEntry q path disk).1 = [path] ∧
    shownWarnings (deleteEntry q path disk).1 = failedRemovals (deleteEntry q path disk).1 := by
  rw [deleteEntry_events]
  split_ifs <;> simp_all [removalTargets, shownWarnings, failedRemovals]

theorem deleteLoop_targets (q : Platform σ υ) :
    ∀ (paths : List String) (disk : σ),
      removalTargets (deleteLoop q paths disk).1 = paths ∧
      shownWarnings (deleteLoop q paths disk).1 = failedRemovals (deleteLoop q paths disk).1
  | [], _ => ⟨rfl, rfl⟩
  | p :: ps, disk => by
    rw [deleteLoop_cons]
    simp only [removalTargets_append, shownWarnings_append, failedRemovals_append,
      (deleteEntry_targets q p disk).1, (deleteEntry_targets q p disk).2,
      (deleteLoop_targets q ps (deleteEntry q p disk).2).1,
      (deleteLoop_targets q ps (deleteEntry q p disk).2).2]
    simp

/-- A rename or copy call of one iteration of the paste loop is on the local
file of the URL of the iteration and goes to `destFile` of that source. -/
theorem pasteEntry_destination (q : Platform σ υ) (cutMode : Bool) (destPath : String) (u : υ)
    (disk : σ) (src dst : String) (ok : Bool)
    (h : Event.call (FsCall.rename src dst) ok ∈ (pasteEntry q cutMode destPath u disk).1 ∨
      Event.call (FsCall.copy src dst) ok ∈ (pasteEntry q cutMode destPath u disk).1) :
    q.toLocalFile u = src ∧ dst = destFile q destPath src := by
  unfold pasteEntry at h
  simp only at h
  split_ifs at h <;> simp_all
  all_goals aesop

/-- Every event of the loop of `deleteItems` is an event of the loop body run
on one selected path from some disk. -/
theorem mem_deleteLoop (q : Platform σ υ) (e : Event) :
    ∀ (paths : List String) (disk : σ), e ∈ (deleteLoop q paths disk).1 →
      ∃ p ∈ paths, ∃ d, e ∈ (deleteEntry q p d).1
  | [], disk, h => by simp [deleteLoop_nil] at h
  | p :: ps, disk, h => by
    rw [deleteLoop_cons] at h
    rcases List.mem_append.mp h with h1 | h2
    · exact ⟨p, List.mem_cons_self _ _, disk, h1⟩
    · obtain ⟨v, hv, d, hd⟩ := mem_deleteLoop q e ps _ h2
      exact ⟨v, List.mem_cons_of_mem _ hv, d, hd⟩

/-- The events of one iteration of the delete loop, by kind of path. -/
theorem mem_deleteEntry (q : Platform σ υ) (path : String) (disk : σ) (e : Event)
    (h : e ∈ (deleteEntry q path disk).1) :
    (q.isDir disk path = true ∧
      (e = Event.call (FsCall.removeRecursively path) (q.removeRecursively disk path).1 ∨
        e = Event.warning (Dialog.deleteFolderFailed path))) ∨
    (q.isDir disk path = false ∧
      (e = Event.call (FsCall.remove path) (q.remove disk path).1 ∨
        e = Event.warning (Dialog.deleteFileFailed path))) := by
  unfold deleteEntry at h
  cases hdir : q.isDir disk path
  · right
    simp only [hdir, Bool.false_eq_true, if_false] at h
    cases hr : (q.remove disk path).1 <;> simp_all
  · left
    simp only [hdir, if_true] at h
    cases hr : (q.removeRecursively disk path).1 <;> simp_all

/-! ## Claims -/

/-- C1: in `pasteItems`, a call removing a source `p` occurs only in cut mode and
only directly after the rename of `p` to its destination failed and the copy of
`p` to its destination succeeded; and for an entry pasted in cut mode whose
rename fails, when the entry is a directory (no copy is attempted) or the copy
fails, the iteration calls no removal at all and the disk it leaves is the one
left by the failed rename, respectively the failed copy. -/
theorem pasteItems_removes_source_only_after_copy (q : Platform σ υ) (destPath : String) :
    (∀ (s : AppState σ υ) (p : String) (ok : Bool),
      Event.call (FsCall.remove p) ok ∈ (pasteItems q destPath s).1 →
        s.cutMode = true ∧ ∃ pre post, (pasteItems q destPath s).1 =
          pre ++ [Event.call (FsCall.rename p (destFile q destPath p)) false,
                  Event.call (FsCall.copy p (destFile q destPath p)) true,
                  Event.call (FsCall.remove p) ok] ++ post) ∧
    (∀ (u : υ) (disk : σ),
      q.toLocalFile u ≠ "" →
      (q.rename disk (q.toLocalFile u) (destFile q destPath (q.toLocalFile u))).1 = false →
      (q.isDir (q.rename disk (q.toLocalFile u) (destFile q destPath (q.toLocalFile u))).2
          (q.toLocalFile u) = true ∨
        (q.copy (q.rename disk (q.toLocalFile u) (destFile q destPath (q.toLocalFile u))).2
          (q.toLocalFile u) (destFile q destPath (q.toLocalFile u))).1 = false) →
      (∀ e ∈ (pasteEntry q true destPath u disk).1, e.isRemove = false) ∧
      (pasteEntry q true destPath u disk).2 =
        if q.isDir (q.rename disk (q.toLocalFile u) (destFile q destPath (q.toLocalFile u))).2
            (q.toLocalFile u) = true
        then (q.rename disk (q.toLocalFile u) (destFile q destPath (q.toLocalFile u))).2
        else (q.copy (q.rename disk (q.toLocalFile u) (destFile q destPath (q.toLocalFile u))).2
          (q.toLocalFile u) (destFile q destPath (q.toLocalFile u))).2) := by
  refine ⟨?_, ?_⟩
  · intro s p ok h
    unfold pasteItems at h ⊢
    cases hc : s.clipboard with
    | none => simp [hc] at h
    | some urls =>
      simp only [hc] at h ⊢
      exact pasteLoop_remove q s.cutMode destPath p ok urls s.disk h
  · intro u disk hsrc hren hcase
    unfold pasteEntry
    simp only [hsrc, hren, if_true, if_false, Bool.false_eq_true]
    rcases hcase with hd | hcp
    · simp [hd, Event.isRemove]
    · by_cases hd : q.isDir (q.rename disk (q.toLocalFile u)
          (destFile q destPath (q.toLocalFile u))).2 (q.toLocalFile u) = true
      · simp [hd, Event.isRemove]
      · simp [hd, hcp, Event.isRemove]

/-- C1, on the concrete platform: cutting `/src/a` into `/dst` when both the
rename and the copy fail calls no removal and leaves the disk as it was. -/
theorem pasteItems_removes_source_only_after_copy_witness :
    simPlatform.toLocalFile "file:///src/a" ≠ "" ∧
    (simPlatform.rename diskRefusing "/src/a" "/dst/a").1 = false ∧
    (simPlatform.copy diskRefusing "/src/a" "/dst/a").1 = false ∧
    (∀ e ∈ (pasteEntry simPlatform true "/dst" "file:///src/a" diskRefusing).1,
      e.isRemove = false) ∧
    (pasteEntry simPlatform true "/dst" "file:///src/a" diskRefusing).2 = diskRefusing :=
  ⟨by decide, by decide, by decide,
    (pasteItems_removes_source_only_after_copy simPlatform "/dst").2 "file:///src/a"
      diskRefusing (by decide) (by decide) (Or.inr (by decide))⟩

/-- C2, as stated, fails: with a payload whose second URL is not a local file,
the iteration of that URL makes no call and shows no message, so the paste
yields an outcome for two of the three entries only. -/
theorem pasteItems_skips_nonlocal_url :
    pasteRuns simPlatform false "/dst" mixedPayload disk0 =
      [[Event.call (FsCall.copy "/src/a" "/dst/a") true], [],
        [Event.call (FsCall.copy "/src/c" "/dst/c") true]] ∧
    (pasteItems simPlatform "/dst" ⟨disk0, some mixedPayload, false⟩).1 =
      [Event.call (FsCall.copy "/src/a" "/dst/a") true,
        Event.call (FsCall.copy "/src/c" "/dst/c") true] := by
  decide

/-- C2, amended: the trace of a paste is the concatenation, in payload order,
of one iteration per URL of the payload, whatever happened in the earlier
iterations; the iteration of a URL is empty exactly when the local file of the
URL is the empty string, and otherwise it holds at most one call each of
rename, copy and remove, all on the local file of that URL, and at most one
warning. -/
theorem pasteItems_one_iteration_per_url (q : Platform σ υ) (cutMode : Bool)
    (destPath : String) (urls : List υ) (disk : σ) :
    (pasteItems q destPath ⟨disk, some urls, cutMode⟩).1 =
      (pasteRuns q cutMode destPath urls disk).flatten ∧
    List.Forall₂
      (fun u run =>
        (run = [] ↔ q.toLocalFile u = "") ∧
        (∀ c ok, Event.call c ok ∈ run → c.source = q.toLocalFile u) ∧
        run.countP Event.isRename ≤ 1 ∧ run.countP Event.isCopy ≤ 1 ∧
        run.countP Event.isRemove ≤ 1 ∧ run.countP Event.isWarning ≤ 1)
      urls (pasteRuns q cutMode destPath urls disk) :=
  ⟨pasteLoop_eq_join q cutMode destPath urls disk, pasteRuns_shape q cutMode destPath urls disk⟩

/-- C2, on the concrete platform: for three local files the second of which
does not exist, the paste runs three iterations, the second one a failed copy
with its warning, the first and third successful copies. -/
theorem pasteItems_one_iteration_per_url_witness :
    pasteRuns simPlatform false "/dst" missingSecond disk0 =
      [[Event.call (FsCall.copy "/src/a" "/dst/a") true],
        [Event.call (FsCall.copy "/src/b" "/dst/b") false, Event.warning Dialog.copyFileFailed],
        [Event.call (FsCall.copy "/src/c" "/dst/c") true]] ∧
    (pasteItems simPlatform "/dst" ⟨disk0, some missingSecond, false⟩).1 =
      (pasteRuns simPlatform false "/dst" missingSecond disk0).flatten :=
  ⟨by decide, (pasteItems_one_iteration_per_url simPlatform false "/dst" missingSecond disk0).1⟩

/-- C3, as stated, fails: after cutting `/src/a` and pasting it into `/dst`,
the clipboard still holds the payload, and a second paste attempts a copy of
`/src/a` again (which fails, the file having been moved). -/
theorem pasteItems_twice_repeats_transfer :
    (pasteItems simPlatform "/dst" ⟨disk0, some ["file:///src/a"], true⟩).1 =
      [Event.call (FsCall.rename "/src/a" "/dst/a") true] ∧
    (pasteItems simPlatform "/dst" ⟨disk0, some ["file:///src/a"], true⟩).2.clipboard =
      some ["file:///src/a"] ∧
    (pasteItems simPlatform "/dst"
        (pasteItems simPlatform "/dst" ⟨disk0, some ["file:///src/a"], true⟩).2).1 =
      [Event.call (FsCall.copy "/src/a" "/dst/a") false, Event.warning Dialog.copyFileFailed] := by
  decide

/-- C3, amended: `pasteItems` leaves the clipboard as it found it; when the
clipboard holds URLs, a second paste with no copy or cut in between runs the
paste loop over the same payload again, in copy mode, from the disk the first
paste left; and the second paste calls neither rename nor remove. -/
theorem pasteItems_twice (q : Platform σ υ) (destPath : String) (s : AppState σ υ) :
    (pasteItems q destPath s).2.clipboard = s.clipboard ∧
    (∀ urls, s.clipboard = some urls →
      (pasteItems q destPath (pasteItems q destPath s).2).1 =
        (pasteLoop q false destPath urls (pasteItems q destPath s).2.disk).1) ∧
    (∀ e ∈ (pasteItems q destPath (pasteItems q destPath s).2).1,
      e.isRename = false ∧ e.isRemove = false) := by
  cases hc : s.clipboard with
  | none =>
    have h1 : pasteItems q destPath s = ([], s) := by simp [pasteItems, hc]
    simp [h1, hc]
  | some urls =>
    have h1 : (pasteItems q destPath s).2 =
        { s with disk := (pasteLoop q s.cutMode destPath urls s.disk).2, cutMode := false } := by
      simp [pasteItems, hc]
    have h2 : (pasteItems q destPath (pasteItems q destPath s).2).1 =
        (pasteLoop q false destPath urls (pasteItems q destPath s).2.disk).1 := by
      rw [h1]; simp [pasteItems, hc]
    refine ⟨by rw [h1]; exact hc, ?_, ?_⟩
    · intro urls2 hu
      cases hu
      exact h2
    · intro e he
      rw [h2] at he
      obtain ⟨u, _, d, hd⟩ := mem_pasteLoop q false destPath e urls _ he
      exact pasteEntry_copyMode q destPath u d e hd

/-- C3, on the concrete platform: after copying `/src/a` into `/dst`, a second
paste makes the same copy call again. -/
theorem pasteItems_twice_witness :
    (pasteItems simPlatform "/dst"
        (pasteItems simPlatform "/dst" ⟨disk0, some ["file:///src/a"], false⟩).2).1 =
      (pasteLoop simPlatform false "/dst" ["file:///src/a"]
        (pasteItems simPlatform "/dst" ⟨disk0, some ["file:///src/a"], false⟩).2.disk).1 ∧
    (pasteLoop simPlatform false "/dst" ["file:///src/a"]
        (pasteItems simPlatform "/dst" ⟨disk0, some ["file:///src/a"], false⟩).2.disk).1 =
      [Event.call (FsCall.copy "/src/a" "/dst/a") false, Event.warning Dialog.copyFileFailed] :=
  ⟨(pasteItems_twice simPlatform "/dst" ⟨disk0, some ["file:///src/a"], false⟩).2.1
      ["file:///src/a"] rfl, by decide⟩

/-- C4, as stated, fails: when the clipboard holds no URLs, `pasteItems`
returns before the reset and `cutMode` stays true. -/
theorem pasteItems_no_urls_keeps_cutMode :
    (pasteItems simPlatform "/dst" ⟨disk0, none, true⟩).2.cutMode = true := by
  decide

/-- C4, amended: whenever the clipboard holds URLs (an empty list included),
`cutMode` is false after `pasteItems`, whatever the filesystem calls returned;
when the clipboard holds no URLs, `pasteItems` does nothing and leaves the
state, `cutMode` included, as it was. -/
theorem pasteItems_resets_cutMode (q : Platform σ υ) (destPath : String) (s : AppState σ υ) :
    (s.clipboard.isSome = true → (pasteItems q destPath s).2.cutMode = false) ∧
    (s.clipboard = none → pasteItems q destPath s = ([], s)) := by
  cases hc : s.clipboard with
  | none => simp [pasteItems, hc]
  | some urls => simp [pasteItems, hc]

/-- C4, on the concrete platform: a paste in cut mode whose only entry fails
to move leaves `cutMode` false. -/
theorem pasteItems_resets_cutMode_witness :
    (pasteItems simPlatform "/dst" ⟨diskRefusing, some ["file:///src/a"], true⟩).1 =
      [Event.call (FsCall.rename "/src/a" "/dst/a") false,
        Event.call (FsCall.copy "/src/a" "/dst/a") false,
        Event.warning Dialog.moveFileFailed] ∧
    (pasteItems simPlatform "/dst" ⟨diskRefusing, some ["file:///src/a"], true⟩).2.cutMode =
      false :=
  ⟨by decide, (pasteItems_resets_cutMode simPlatform "/dst"
    ⟨diskRefusing, some ["file:///src/a"], true⟩).1 rfl⟩

/-- C5: for every selection `s1` and every non-empty selection `s2`,
`copyItems` on `s1` followed by `cutItems` on `s2` leaves the state that
`cutItems` on `s2` alone leaves: the clipboard holds the URLs of `s2` only,
`cutMode` is true, and the following paste is the same in both cases. -/
theorem cutItems_after_copyItems (q : Platform σ υ) (s1 s2 : List String) (s : AppState σ υ)
    (h : s2 ≠ []) :
    cutItems q s2 (copyItems q s1 s) = cutItems q s2 s ∧
    (cutItems q s2 (copyItems q s1 s)).clipboard = some (s2.map q.fromLocalFile) ∧
    (cutItems q s2 (copyItems q s1 s)).cutMode = true ∧
    ∀ destPath, pasteItems q destPath (cutItems q s2 (copyItems q s1 s)) =
      pasteItems q destPath (cutItems q s2 s) := by
  have e : cutItems q s2 (copyItems q s1 s) = cutItems q s2 s := by
    unfold cutItems copyItems
    by_cases h1 : s1 = [] <;> simp [h, h1]
  refine ⟨e, ?_, ?_, fun d => by rw [e]⟩
  · rw [e]; simp [cutItems, h]
  · rw [e]; simp [cutItems, h]

/-- C5, on the concrete platform: copying `/src/a` and then cutting `/src/c`
stages `/src/c` alone, in cut mode. -/
theorem cutItems_after_copyItems_witness :
    ["/src/c"] ≠ [] ∧
    (cutItems simPlatform ["/src/c"]
      (copyItems simPlatform ["/src/a"] ⟨disk0, none, false⟩)).clipboard =
        some (["/src/c"].map simPlatform.fromLocalFile) ∧
    (["/src/c"].map simPlatform.fromLocalFile) = ["file:///src/c"] :=
  ⟨by decide,
    (cutItems_after_copyItems simPlatform ["/src/a"] ["/src/c"] ⟨disk0, none, false⟩
      (by decide)).2.1, by decide⟩

/-- C6: in both modes, every rename and every copy that `pasteItems` calls is
on the local file of a URL of the payload, and its destination is the target
directory, then the separator, then `fileName` of the source. -/
theorem pasteItems_destination (q : Platform σ υ) (destPath : String) (s : AppState σ υ)
    (src dst : String) (ok : Bool)
    (h : Event.call (FsCall.rename src dst) ok ∈ (pasteItems q destPath s).1 ∨
      Event.call (FsCall.copy src dst) ok ∈ (pasteItems q destPath s).1) :
    (∃ urls, s.clipboard = some urls ∧ ∃ u ∈ urls, q.toLocalFile u = src) ∧
    dst = destPath ++ q.separator ++ q.fileName src := by
  unfold pasteItems at h
  cases hc : s.clipboard with
  | none => simp [hc] at h
  | some urls =>
    simp only [hc] at h
    have key : ∀ e, e ∈ (pasteLoop q s.cutMode destPath urls s.disk).1 →
        (e = Event.call (FsCall.rename src dst) ok ∨ e = Event.call (FsCall.copy src dst) ok) →
        (∃ u ∈ urls, q.toLocalFile u = src) ∧ dst = destFile q destPath src := by
      intro e he hk
      obtain ⟨u, hu, d, hd⟩ := mem_pasteLoop q s.cutMode destPath e urls s.disk he
      have := pasteEntry_destination q s.cutMode destPath u d src dst ok
        (by rcases hk with rfl | rfl
            · exact Or.inl hd
            · exact Or.inr hd)
      exact ⟨⟨u, hu, this.1⟩, this.2⟩
    rcases h with h | h
    · obtain ⟨h1, h2⟩ := key _ h (Or.inl rfl)
      exact ⟨⟨urls, rfl, h1⟩, h2⟩
    · obtain ⟨h1, h2⟩ := key _ h (Or.inr rfl)
      exact ⟨⟨urls, rfl, h1⟩, h2⟩

/-- C6, on the concrete platform: the copy of `/src/a` pasted into `/dst` goes
to `/dst/a`. -/
theorem pasteItems_destination_witness :
    Event.call (FsCall.copy "/src/a" "/dst/a") true ∈
      (pasteItems simPlatform "/dst" ⟨disk0, some missingSecond, false⟩).1 ∧
    "/dst/a" = "/dst" ++ simPlatform.separator ++ simPlatform.fileName "/src/a" :=
  ⟨by decide,
    (pasteItems_destination simPlatform "/dst" ⟨disk0, some missingSecond, false⟩
      "/src/a" "/dst/a" true (Or.inr (by decide))).2⟩

/-- C7, as stated, fails: pasting the directory `/src/d` (which holds the file
`/src/d/f`) in copy mode only shows "Folder copy not implemented."; no call is
made, and afterwards neither `/dst/d` nor `/dst/d/f` exists. -/
theorem pasteItems_directory_not_copied :
    (pasteItems simPlatform "/dst" ⟨disk0, some ["file:///src/d"], false⟩).1 =
      [Event.warning Dialog.folderCopyNotImplemented] ∧
    (pasteItems simPlatform "/dst" ⟨disk0, some ["file:///src/d"], false⟩).2.disk = disk0 ∧
    (pasteItems simPlatform "/dst" ⟨disk0, some ["file:///src/d"], false⟩).2.disk.has "/dst/d" =
      false ∧
    (pasteItems simPlatform "/dst" ⟨disk0, some ["file:///src/d"], false⟩).2.disk.has
      "/dst/d/f" = false := by
  decide

/-- C7, amended: for every directory entry pasted in copy mode, the paste makes
no filesystem call, leaves the disk as it is and shows the warning "Folder copy
not implemented.". -/
theorem pasteEntry_directory_copy (q : Platform σ υ) (destPath : String) (u : υ) (disk : σ)
    (hsrc : q.toLocalFile u ≠ "") (hdir : q.isDir disk (q.toLocalFile u) = true) :
    pasteEntry q false destPath u disk =
      ([Event.warning Dialog.folderCopyNotImplemented], disk) := by
  unfold pasteEntry
  simp [hsrc, hdir]

/-- C7, on the concrete platform: the directory `/src/d` pasted in copy mode. -/
theorem pasteEntry_directory_copy_witness :
    simPlatform.toLocalFile "file:///src/d" ≠ "" ∧
    simPlatform.isDir disk0 (simPlatform.toLocalFile "file:///src/d") = true ∧
    pasteEntry simPlatform false "/dst" "file:///src/d" disk0 =
      ([Event.warning Dialog.folderCopyNotImplemented], disk0) :=
  ⟨by decide, by decide,
    pasteEntry_directory_copy simPlatform "/dst" "file:///src/d" disk0 (by decide) (by decide)⟩

/-- C8, as stated, fails: with an empty target directory string the paste is
not rejected; `/src/a` is copied to `/a`, respectively moved to `/a`. -/
theorem pasteItems_empty_target_not_rejected :
    (pasteItems simPlatform "" ⟨disk0, some ["file:///src/a"], false⟩).1 =
      [Event.call (FsCall.copy "/src/a" "/a") true] ∧
    (pasteItems simPlatform "" ⟨disk0, some ["file:///src/a"], false⟩).2.disk.has "/a" = true ∧
    (pasteItems simPlatform "" ⟨disk0, some ["file:///src/a"], true⟩).1 =
      [Event.call (FsCall.rename "/src/a" "/a") true] := by
  decide

/-- C8, amended: `pasteItems` does not check the target directory string: with
an empty one, every entry whose local file is not empty is processed as with
any other target, its destination being the separator followed by `fileName`
of the source; in cut mode the rename to that destination is called, in copy
mode a non-directory is copied to it. -/
theorem pasteEntry_empty_target (q : Platform σ υ) (u : υ) (disk : σ)
    (hsrc : q.toLocalFile u ≠ "") :
    destFile q "" (q.toLocalFile u) = q.separator ++ q.fileName (q.toLocalFile u) ∧
    Event.call (FsCall.rename (q.toLocalFile u) (q.separator ++ q.fileName (q.toLocalFile u)))
        (q.rename disk (q.toLocalFile u) (q.separator ++ q.fileName (q.toLocalFile u))).1 ∈
      (pasteEntry q true "" u disk).1 ∧
    (q.isDir disk (q.toLocalFile u) = false →
      Event.call (FsCall.copy (q.toLocalFile u) (q.separator ++ q.fileName (q.toLocalFile u)))
          (q.copy disk (q.toLocalFile u) (q.separator ++ q.fileName (q.toLocalFile u))).1 ∈
        (pasteEntry q false "" u disk).1) := by
  have hd : destFile q "" (q.toLocalFile u) = q.separator ++ q.fileName (q.toLocalFile u) := by
    simp [destFile]
  refine ⟨hd, ?_, ?_⟩
  · unfold pasteEntry
    simp only [hsrc, if_false, if_true, hd]
    split_ifs <;> simp_all
  · intro hdir
    unfold pasteEntry
    simp [hsrc, hdir, hd]

/-- C8, on the concrete platform: cutting `/src/a` with an empty target calls
the rename of `/src/a` to `/a`. -/
theorem pasteEntry_empty_target_witness :
    simPlatform.toLocalFile "file:///src/a" ≠ "" ∧
    Event.call (FsCall.rename "/src/a" "/a") true ∈
      (pasteEntry simPlatform true "" "file:///src/a" disk0).1 :=
  ⟨by decide, (pasteEntry_empty_target simPlatform "file:///src/a" disk0 (by decide)).2.1⟩

/-- C9: a confirmed `deleteItems` calls a removal on every selected path exactly
once, in selection order, whatever the earlier removals returned; the call is
`removeRecursively` when the path is a directory on the disk at that moment and
`remove` otherwise; and the warnings shown are exactly the failure warnings of
the removal calls that returned false, in call order. -/
theorem deleteItems_attempts_every_path (q : Platform σ υ) (selected : List String)
    (s : AppState σ υ) :
    removalTargets (deleteItems q selected true s).1 = selected ∧
    shownWarnings (deleteItems q selected true s).1 =
      failedRemovals (deleteItems q selected true s).1 ∧
    (∀ p ok, Event.call (FsCall.removeRecursively p) ok ∈ (deleteItems q selected true s).1 →
      p ∈ selected ∧ ∃ d, q.isDir d p = true ∧ ok = (q.removeRecursively d p).1) ∧
    (∀ p ok, Event.call (FsCall.remove p) ok ∈ (deleteItems q selected true s).1 →
      p ∈ selected ∧ ∃ d, q.isDir d p = false ∧ ok = (q.remove d p).1) ∧
    (∀ e ∈ (deleteItems q selected true s).1, e.isRename = false ∧ e.isCopy = false) := by
  have htr : (deleteItems q selected true s).1 = (deleteLoop q selected s.disk).1 := by
    unfold deleteItems
    by_cases h : selected = []
    · subst h; simp [deleteLoop_nil]
    · simp [h]
  rw [htr]
  refine ⟨(deleteLoop_targets q selected s.disk).1, (deleteLoop_targets q selected s.disk).2,
    ?_, ?_, ?_⟩
  · intro p ok h
    obtain ⟨v, hv, d, hd⟩ := mem_deleteLoop q _ selected s.disk h
    rcases mem_deleteEntry q v d _ hd with ⟨hdir, he | he⟩ | ⟨_, he | he⟩
    · injection he with h1 h2
      injection h1 with h3
      subst h3
      exact ⟨hv, d, hdir, h2⟩
    · cases he
    · injection he with h1 h2
      cases h1
    · cases he
  · intro p ok h
    obtain ⟨v, hv, d, hd⟩ := mem_deleteLoop q _ selected s.disk h
    rcases mem_deleteEntry q v d _ hd with ⟨_, he | he⟩ | ⟨hdir, he | he⟩
    · injection he with h1 h2
      cases h1
    · cases he
    · injection he with h1 h2
      injection h1 with h3
      subst h3
      exact ⟨hv, d, hdir, h2⟩
    · cases he
  · intro e h
    obtain ⟨v, hv, d, hd⟩ := mem_deleteLoop q _ selected s.disk h
    rcases mem_deleteEntry q v d _ hd with ⟨_, he | he⟩ | ⟨_, he | he⟩ <;> subst he <;>
      exact ⟨rfl, rfl⟩

/-- C9, on the concrete platform: deleting a directory whose removal fails, a
file, and a path that does not exist attempts all three in order and warns for
the first and the third. -/
theorem deleteItems_attempts_every_path_witness :
    (deleteItems simPlatform ["/src/d", "/src/a", "/src/b"] true ⟨diskLocked, none, false⟩).1 =
      [Event.call (FsCall.removeRecursively "/src/d") false,
        Event.warning (Dialog.deleteFolderFailed "/src/d"),
        Event.call (FsCall.remove "/src/a") true,
        Event.call (FsCall.remove "/src/b") false,
        Event.warning (Dialog.deleteFileFailed "/src/b")] ∧
    removalTargets
        (deleteItems simPlatform ["/src/d", "/src/a", "/src/b"] true
          ⟨diskLocked, none, false⟩).1 =
      ["/src/d", "/src/a", "/src/b"] :=
  ⟨by decide,
    (deleteItems_attempts_every_path simPlatform ["/src/d", "/src/a", "/src/b"]
      ⟨diskLocked, none, false⟩).1⟩

/-- C10: for every selected item, whatever the dialog returned for `ok`,
renaming it to the name it already has calls no rename, shows no message and
leaves the state (so the path of the item) as it was. -/
theorem renameItem_same_name (q : Platform σ υ) (oldPath : String) (ok : Bool)
    (s : AppState σ υ) :
    renameItem q [oldPath] (q.fileName oldPath) ok s = ([], s) := by
  simp [renameItem]

/-- C10, on the concrete platform: renaming `/src/a` to `a`. -/
theorem renameItem_same_name_witness :
    simPlatform.fileName "/src/a" = "a" ∧
    (renameItem simPlatform ["/src/a"] (simPlatform.fileName "/src/a") true
      ⟨disk0, none, false⟩).1 = [] ∧
    (renameItem simPlatform ["/src/a"] "b" true ⟨disk0, none, false⟩).1 =
      [Event.call (FsCall.rename "/src/a" "/src/b") true] :=
  ⟨by decide,
    congrArg Prod.fst (renameItem_same_name simPlatform "/src/a" true ⟨disk0, none, false⟩),
    by decide⟩

/-- C11: for an entry pasted in cut mode (its local file is not empty) that is
not a directory when the code asks, the iteration shows a warning if and only
if both the rename and the fallback copy return false, and the warning is then
"Failed to move file."; in particular, when the rename fails and the copy
succeeds, the iteration is the failed rename, the successful copy and the
removal of the source, it shows no warning whatever the removal returned, and
the disk it leaves is the one left by the removal. -/
theorem pasteEntry_cut_file_warning (q : Platform σ υ) (destPath : String) (u : υ) (disk : σ)
    (hsrc : q.toLocalFile u ≠ "")
    (hfile : q.isDir (q.rename disk (q.toLocalFile u)
      (destFile q destPath (q.toLocalFile u))).2 (q.toLocalFile u) = false) :
    (shownWarnings (pasteEntry q true destPath u disk).1 ≠ [] ↔
      ((q.rename disk (q.toLocalFile u) (destFile q destPath (q.toLocalFile u))).1 = false ∧
        (q.copy (q.rename disk (q.toLocalFile u) (destFile q destPath (q.toLocalFile u))).2
          (q.toLocalFile u) (destFile q destPath (q.toLocalFile u))).1 = false)) ∧
    (shownWarnings (pasteEntry q true destPath u disk).1 ≠ [] →
      shownWarnings (pasteEntry q true destPath u disk).1 = [Dialog.moveFileFailed]) ∧
    ((q.rename disk (q.toLocalFile u) (destFile q destPath (q.toLocalFile u))).1 = false →
      (q.copy (q.rename disk (q.toLocalFile u) (destFile q destPath (q.toLocalFile u))).2
        (q.toLocalFile u) (destFile q destPath (q.toLocalFile u))).1 = true →
      (pasteEntry q true destPath u disk).1 =
        [Event.call (FsCall.rename (q.toLocalFile u) (destFile q destPath (q.toLocalFile u)))
            false,
          Event.call (FsCall.copy (q.toLocalFile u) (destFile q destPath (q.toLocalFile u)))
            true,
          Event.call (FsCall.remove (q.toLocalFile u))
            (q.remove (q.copy (q.rename disk (q.toLocalFile u)
              (destFile q destPath (q.toLocalFile u))).2 (q.toLocalFile u)
              (destFile q destPath (q.toLocalFile u))).2 (q.toLocalFile u)).1] ∧
      shownWarnings (pasteEntry q true destPath u disk).1 = [] ∧
      (pasteEntry q true destPath u disk).2 =
        (q.remove (q.copy (q.rename disk (q.toLocalFile u)
          (destFile q destPath (q.toLocalFile u))).2 (q.toLocalFile u)
          (destFile q destPath (q.toLocalFile u))).2 (q.toLocalFile u)).2) := by
  unfold pasteEntry
  simp only [hsrc, hfile, if_true, if_false, Bool.false_eq_true]
  cases hr : (q.rename disk (q.toLocalFile u) (destFile q destPath (q.toLocalFile u))).1
  · cases hc : (q.copy (q.rename disk (q.toLocalFile u)
        (destFile q destPath (q.toLocalFile u))).2 (q.toLocalFile u)
        (destFile q destPath (q.toLocalFile u))).1 <;>
      simp [shownWarnings]
  · simp [shownWarnings]

/-- C11, on the concrete platform: cutting `/src/a` into `/dst` when the rename
fails, the copy succeeds and the removal of the source fails shows no warning
and leaves the file at both `/src/a` and `/dst/a`. -/
theorem pasteEntry_cut_file_warning_witness :
    simPlatform.toLocalFile "file:///src/a" ≠ "" ∧
    simPlatform.isDir (simPlatform.rename diskKeepingSource "/src/a" "/dst/a").2 "/src/a" =
      false ∧
    ((pasteEntry simPlatform true "/dst" "file:///src/a" diskKeepingSource).1 =
        [Event.call (FsCall.rename "/src/a" "/dst/a") false,
          Event.call (FsCall.copy "/src/a" "/dst/a") true,
          Event.call (FsCall.remove "/src/a") false] ∧
      shownWarnings (pasteEntry simPlatform true "/dst" "file:///src/a" diskKeepingSource).1 =
        [] ∧
      (pasteEntry simPlatform true "/dst" "file:///src/a" diskKeepingSource).2 =
        (simPlatform.remove (simPlatform.copy (simPlatform.rename diskKeepingSource "/src/a"
          "/dst/a").2 "/src/a" "/dst/a").2 "/src/a").2) ∧
    (pasteEntry simPlatform true "/dst" "file:///src/a" diskKeepingSource).2.has "/src/a" =
      true ∧
    (pasteEntry simPlatform true "/dst" "file:///src/a" diskKeepingSource).2.has "/dst/a" =
      true :=
  ⟨by decide, by decide,
    (pasteEntry_cut_file_warning simPlatform "/dst" "file:///src/a" diskKeepingSource
      (by decide) (by decide)).2.2 (by decide) (by decide),
    by decide, by decide⟩

end Enapp
